import Mathlib

/-!
Verification development for hangupserver.py: a shallow embedding of the
channel resolution and termination logic, the directory synchronisation
(users.conf / sip.conf / extensions.conf parsing), and the recording
retention engine, together with proofs about the behaviour of each
operation.  Python strings scanned character by character are modelled as
`List Char`; the one-character slices produced by `mid(s, b, 1)` for
`b = 0 .. len(s)` are modelled as `Option Char` (the slice at `b = 0` is
always the empty string, modelled as `none`).  Results of external
subprocess and filesystem calls are inputs of the embedded functions.
-/

namespace HangupServer

/-- Update the first element satisfying `p`, leaving the rest unchanged.
This models a Python in-place mutation of `filtered[0]` where `filtered`
is a list comprehension whose elements alias records of the global list. -/
def updFirst (p : α → Bool) (f : α → α) : List α → List α
  | [] => []
  | x :: xs => if p x then f x :: xs else x :: updFirst p f xs

/-- Python's substring containment test `needle in hay` on strings. -/
def containsSub (needle : List Char) : List Char → Bool
  | [] => needle.isEmpty
  | c :: rest => needle.isPrefixOf (c :: rest) || containsSub needle rest

/-- The sequence of one-character slices `mid(s, b, 1)` for `b = 0 .. len(s)`:
the slice at `b = 0` is `s[-1:0]`, which is always the empty string (`none`);
the slices at `b = 1 .. len(s)` are the characters of `s` in order. -/
def midSeq (s : List Char) : List (Option Char) := none :: s.map some

/-- The characters contributed by a one-character slice: `+=` of the empty
string appends nothing. -/
def optChars : Option Char → List Char
  | none => []
  | some c => [c]

/-- The string contributed by a one-character slice. -/
def optStr : Option Char → String
  | none => ""
  | some c => String.singleton c

/-!
## ChannelResolver: terminateGivenCall

The live-channel listing returned by `asterisk -rx 'core show channels
concise'` is scanned character by character.  After each `/` the scanner
collects the following characters up to the next `!` into `fullChan`; at
the `!` it requires a `-` in the collected token, prepends `SIP/`, and
tests whether the requested channel string occurs inside it.  On the first
match a single `channel request hangup` command is issued and the loop
breaks.  Note that when the collected token has no `-` the buffer
`fullChan` is NOT cleared before the scan continues.
-/

/-- The character-by-character scan of the channel listing inside
`terminateGivenCall`, returning the full channel identifier (already
prefixed with `SIP/`) that the hangup command is issued against, if any.
`termChan` is `'SIP/' + requested extension`. -/
def chanScan (termChan : List Char) : Bool → List Char → List (Option Char) → Option (List Char)
  | _, _, [] => none
  | getChan, fullChan, t :: rest =>
    if t = some '/' ∧ getChan = false then
      chanScan termChan true fullChan rest
    else if getChan = true ∧ t ≠ some '!' then
      chanScan termChan true (fullChan ++ optChars t) rest
    else if getChan = true ∧ t = some '!' then
      if containsSub ['-'] fullChan then
        if containsSub termChan ("SIP/".data ++ fullChan) then
          some ("SIP/".data ++ fullChan)
        else
          chanScan termChan false [] rest
      else
        chanScan termChan false fullChan rest
    else
      chanScan termChan getChan fullChan rest

/-- One entry of the global `hangupData` table. -/
structure HangupRec where
  id : String
  callchannel : String
  status : String
deriving DecidableEq

/-- What `terminateGivenCall` hands back to Flask: either a jsonified list
of records, or an exception that escaped the handler (there is no
try/except in the function). -/
inductive TermOutcome where
  | response (records : List HangupRec)
  | unhandled
deriving DecidableEq

/-- Result of one `terminateGivenCall` call: the HTTP-level outcome, the
list of issued `channel request hangup` commands, and the new
`hangupData` table. -/
structure TermResult where
  outcome : TermOutcome
  hangups : List (List Char)
  hangupData : List HangupRec
deriving DecidableEq

/-- The channel the hangup command is issued against, if any: the raw
listing must contain `SIP/{ext}` as a substring, and then the scan must
find a token whose `SIP/`-prefixed form contains `SIP/{ext}`. -/
def hangupTarget (ext : String) (chan : List Char) : Option (List Char) :=
  let termChan := "SIP/".data ++ ext.data
  if containsSub termChan chan then chanScan termChan false [] (midSeq chan) else none

/-- Shallow embedding of `terminateGivenCall(hgUpId)`.  Collaborator
inputs: `json` is the `callchannel` field of the request body (if
present), `chan` is the stdout of the channel-listing command, `listOk`
states whether that command's reported stderr was None, `hangupOk` the
same for the hangup command. -/
def terminateGivenCall (hgUpId : String) (json : Option String) (chan : List Char)
    (listOk hangupOk : Bool) (st : List HangupRec) : TermResult :=
  let hgup := st.filter (fun r => r.id == hgUpId)
  match json with
  | none => ⟨.response hgup, [], st⟩
  | some callch =>
    match hgup with
    | [] => ⟨.unhandled, [], st⟩
    | _ :: _ =>
      let st1 := updFirst (fun r => r.id == hgUpId)
        (fun r => { r with callchannel := callch }) st
      let termChan := "SIP/".data ++ callch.data
      if listOk then
        if containsSub termChan chan then
          match chanScan termChan false [] (midSeq chan) with
          | some full =>
            let newStatus := if hangupOk then "TERMINATED" else "ERROR"
            let st2 := updFirst (fun r => r.id == hgUpId)
              (fun r => { r with status := newStatus }) st1
            ⟨.response (st2.filter (fun r => r.id == hgUpId)),
              ["channel request hangup ".data ++ full], st2⟩
          | none =>
            ⟨.response (st1.filter (fun r => r.id == hgUpId)), [], st1⟩
        else
          let st2 := updFirst (fun r => r.id == hgUpId)
            (fun r => { r with status := "ERROR" }) st1
          ⟨.response (st2.filter (fun r => r.id == hgUpId)), [], st2⟩
      else
        let st2 := updFirst (fun r => r.id == hgUpId)
          (fun r => { r with status := "ERROR" }) st1
        ⟨.response (st2.filter (fun r => r.id == hgUpId)), [], st2⟩

/-- The hypothesis of claim C1 read off the raw listing: no
newline-separated record's first `!`-delimited field starts with
`SIP/{ext}-`. -/
def noTokenWithPrefix (chan : List Char) (ext : String) : Bool :=
  ((chan.splitOn '\n').map (fun r => r.takeWhile (fun c => c ≠ '!'))).all
    (fun tok => ! (("SIP/".data ++ ext.data ++ ['-']).isPrefixOf tok))

/-- When a list's `p`-filter is a single record and `f` preserves `p`, the
filter of the first-match update is that record updated. -/
theorem filter_updFirst (p : α → Bool) (f : α → α) (hpf : ∀ a, p (f a) = p a) :
    ∀ {l : List α} {r : α}, l.filter p = [r] → (updFirst p f l).filter p = [f r] := by
  intro l
  induction l with
  | nil => intro r h; simp at h
  | cons x xs ih =>
    intro r h
    by_cases hx : p x = true
    · rw [List.filter_cons_of_pos hx] at h
      obtain ⟨h1, h2⟩ := List.cons_eq_cons.mp h
      subst h1
      simp only [updFirst, hx, if_true]
      rw [List.filter_cons_of_pos (by rw [hpf]; exact hx), h2]
    · rw [List.filter_cons_of_neg (by simpa using hx)] at h
      simp only [updFirst, hx, if_false, Bool.false_eq_true]
      rw [List.filter_cons_of_neg (by simpa using hx)]
      exact ih h

theorem terminate_of_no_substring (hgUpId ext : String) (chan : List Char)
    (hangupOk : Bool) (st : List HangupRec) (r0 : HangupRec)
    (hu : st.filter (fun r => r.id == hgUpId) = [r0])
    (hnc : containsSub ("SIP/".data ++ ext.data) chan = false) :
    terminateGivenCall hgUpId (some ext) chan true hangupOk st =
      ⟨.response [⟨r0.id, ext, "ERROR"⟩], [],
        updFirst (fun r => r.id == hgUpId) (fun r => { r with status := "ERROR" })
          (updFirst (fun r => r.id == hgUpId) (fun r => { r with callchannel := ext }) st)⟩ := by
  have h1 : (updFirst (fun r => r.id == hgUpId)
      (fun r => { r with callchannel := ext }) st).filter (fun r => r.id == hgUpId)
      = [{ r0 with callchannel := ext }] :=
    filter_updFirst (fun (r : HangupRec) => r.id == hgUpId)
      (fun r => { r with callchannel := ext }) (fun a => rfl) hu
  have h2 : (updFirst (fun r => r.id == hgUpId)
      (fun r => { r with status := "ERROR" })
      (updFirst (fun r => r.id == hgUpId) (fun r => { r with callchannel := ext }) st)).filter
        (fun r => r.id == hgUpId)
      = [{ r0 with callchannel := ext, status := "ERROR" }] :=
    filter_updFirst (fun (r : HangupRec) => r.id == hgUpId)
      (fun r => { r with status := "ERROR" }) (fun a => rfl) h1
  simp only [terminateGivenCall, hu, hnc, if_true, if_false, Bool.false_eq_true, h2]

/-- C1 counterexample: the listing `SIP/1003-abc!x!` contains no record whose
first-field token has the prefix `SIP/100-`, and the requestId `000` is
present in the table, yet `terminate(000, 100)` issues a hangup command
against `SIP/1003-abc` and sets the state to TERMINATED, because the code
matches `SIP/100` by substring containment rather than by the prefix
`SIP/100-`. -/
theorem C1_counterexample :
    noTokenWithPrefix ("SIP/1003-abc!x!".data) "100" = true ∧
    (terminateGivenCall "000" (some "100") ("SIP/1003-abc!x!".data) true true
        [⟨"000", "0000", "IDLE"⟩]).hangups
      = ["channel request hangup SIP/1003-abc".data] ∧
    (terminateGivenCall "000" (some "100") ("SIP/1003-abc!x!".data) true true
        [⟨"000", "0000", "IDLE"⟩]).hangupData
      = [⟨"000", "100", "TERMINATED"⟩] := by
  refine ⟨by decide, by decide, by decide⟩

/-- C1 (amended): for a requestId present in the ChannelStatus table and a
live-channel listing whose raw text does not contain the substring
`SIP/{targetExtension}`, terminate sets the record's state to ERROR,
returns it, and never issues a `channel request hangup` command. -/
theorem C1_no_substring_yields_error (hgUpId ext : String) (chan : List Char)
    (hangupOk : Bool) (st : List HangupRec) (r0 : HangupRec)
    (hu : st.filter (fun r => r.id == hgUpId) = [r0])
    (hnc : containsSub ("SIP/".data ++ ext.data) chan = false) :
    (terminateGivenCall hgUpId (some ext) chan true hangupOk st).hangups = [] ∧
    (terminateGivenCall hgUpId (some ext) chan true hangupOk st).outcome
      = .response [⟨r0.id, ext, "ERROR"⟩] := by
  rw [terminate_of_no_substring hgUpId ext chan hangupOk st r0 hu hnc]
  exact ⟨rfl, rfl⟩

/-- Witness for C1 (amended) at a concrete input. -/
theorem C1_no_substring_yields_error_witness :
    (terminateGivenCall "000" (some "100") ("no channels".data) true true
        [⟨"000", "0000", "IDLE"⟩]).hangups = [] ∧
    (terminateGivenCall "000" (some "100") ("no channels".data) true true
        [⟨"000", "0000", "IDLE"⟩]).outcome = .response [⟨"000", "100", "ERROR"⟩] :=
  C1_no_substring_yields_error "000" "100" ("no channels".data) true
    [⟨"000", "0000", "IDLE"⟩] ⟨"000", "0000", "IDLE"⟩ (by decide) (by decide)

/-- C2: when the scan finds a matching channel record, exactly one hangup
directive is issued, against the matched full channel identifier, and the
returned state is TERMINATED exactly when the directive reports no error;
otherwise it is ERROR. -/
theorem C2_single_directive_and_status (hgUpId ext : String) (chan : List Char)
    (hangupOk : Bool) (st : List HangupRec) (r0 : HangupRec) (full : List Char)
    (hu : st.filter (fun r => r.id == hgUpId) = [r0])
    (hm : hangupTarget ext chan = some full) :
    (terminateGivenCall hgUpId (some ext) chan true hangupOk st).hangups
      = ["channel request hangup ".data ++ full] ∧
    ∃ stat, (terminateGivenCall hgUpId (some ext) chan true hangupOk st).outcome
        = .response [⟨r0.id, ext, stat⟩] ∧
      (stat = "TERMINATED" ↔ hangupOk = true) ∧
      (hangupOk = false → stat = "ERROR") := by
  have hc : containsSub ("SIP/".data ++ ext.data) chan = true := by
    by_contra hcc
    rw [Bool.not_eq_true] at hcc
    simp only [hangupTarget, hcc, if_false, Bool.false_eq_true] at hm
    exact Option.noConfusion hm
  have hs : chanScan ("SIP/".data ++ ext.data) false [] (midSeq chan) = some full := by
    simpa only [hangupTarget, hc, if_true] using hm
  have h1 : (updFirst (fun r => r.id == hgUpId)
      (fun r => { r with callchannel := ext }) st).filter (fun r => r.id == hgUpId)
      = [{ r0 with callchannel := ext }] :=
    filter_updFirst (fun (r : HangupRec) => r.id == hgUpId)
      (fun r => { r with callchannel := ext }) (fun a => rfl) hu
  have h2 : (updFirst (fun r => r.id == hgUpId)
      (fun r => { r with status := if hangupOk then "TERMINATED" else "ERROR" })
      (updFirst (fun r => r.id == hgUpId) (fun r => { r with callchannel := ext }) st)).filter
        (fun r => r.id == hgUpId)
      = [{ r0 with callchannel := ext, status := (if hangupOk then "TERMINATED" else "ERROR") }] :=
    filter_updFirst (fun (r : HangupRec) => r.id == hgUpId)
      (fun r => { r with status := if hangupOk then "TERMINATED" else "ERROR" })
      (fun a => rfl) h1
  refine ⟨?_, if hangupOk then "TERMINATED" else "ERROR", ?_, ?_, ?_⟩
  · simp only [terminateGivenCall, hu, hc, hs, if_true]
  · simp only [terminateGivenCall, hu, hc, hs, if_true, h2]
  · cases hangupOk with
    | false => simp only [if_false, Bool.false_eq_true]; exact ⟨fun h => by simp at h, fun h => by simp at h⟩
    | true => simp
  · cases hangupOk with
    | false => intro _; rfl
    | true => intro h; simp at h

/-- Witness for C2 at a concrete input. -/
theorem C2_single_directive_and_status_witness :
    (terminateGivenCall "000" (some "1002") ("SIP/1002-0000007b!myphones!!1!Up!".data)
        true true [⟨"000", "0000", "IDLE"⟩]).hangups
      = ["channel request hangup ".data ++ "SIP/1002-0000007b".data] ∧
    ∃ stat, (terminateGivenCall "000" (some "1002")
          ("SIP/1002-0000007b!myphones!!1!Up!".data) true true
          [⟨"000", "0000", "IDLE"⟩]).outcome = .response [⟨"000", "1002", stat⟩] ∧
      (stat = "TERMINATED" ↔ true = true) ∧ (true = false → stat = "ERROR") :=
  C2_single_directive_and_status "000" "1002" ("SIP/1002-0000007b!myphones!!1!Up!".data)
    true [⟨"000", "0000", "IDLE"⟩] ⟨"000", "0000", "IDLE"⟩ ("SIP/1002-0000007b".data)
    (by decide) (by decide)

/-- C9: the code comment says a token lacking `-` must be rejected, but the
buffer is not cleared when it is rejected.  In the listing
`SIP/abc!q!` + newline + `SIP/100-7!q!` the malformed token `abc` leaks
into the next extracted token, which becomes `abc100-7`, so the genuinely
matching record `SIP/100-7` is missed: no hangup is issued at all, while
the same listing without the malformed record matches `SIP/100-7`. -/
theorem C9_malformed_token_pollutes_scan :
    hangupTarget "100" ("SIP/abc!q!\nSIP/100-7!q!".data) = none ∧
    hangupTarget "100" ("SIP/100-7!q!".data) = some ("SIP/100-7".data) ∧
    (terminateGivenCall "000" (some "100") ("SIP/abc!q!\nSIP/100-7!q!".data) true true
        [⟨"000", "0000", "IDLE"⟩]).hangups = [] ∧
    (terminateGivenCall "000" (some "100") ("SIP/abc!q!\nSIP/100-7!q!".data) true true
        [⟨"000", "0000", "IDLE"⟩]).hangupData = [⟨"000", "100", "IDLE"⟩] := by
  refine ⟨by decide, by decide, by decide, by decide⟩

/-!
## DirectorySynchronizer

`getIntercomList` reads `/etc/asterisk/extensions.conf` through
`asterisk.config.Config`; `getContactList` reads
`/etc/asterisk/users.conf` and then merges entries from
`/etc/asterisk/sip.conf` via `getContactListFromSip`.  A configuration
file is modelled as an ordered list of named sections, each carrying an
ordered list of (item name, item value) pairs; a file that cannot be
located or parsed is modelled as `none`.
-/

/-- One configuration section (an `asterisk.config` category). -/
structure Category where
  name : String
  items : List (String × String)
deriving DecidableEq

/-- One entry of `contactListData` or `intercomListData`. -/
structure ICRec where
  ext : String
  fullname : String
  typ : String
  ip : String
deriving DecidableEq

/-- One entry of `webRtcContListData`. -/
structure WRec where
  ext : String
  fullname : String
  pswd : String
  ip : String
  sip : String
  avail : String
deriving DecidableEq

/-- The placeholder entry both `contactListData` and `intercomListData`
are reinitialised to at the start of a sync. -/
def dummyContact : ICRec := ⟨"0000", "NA", "NA", "NA"⟩

/-- The state-machine scan of an intercom/conference section name: fields
`type`, `extension` and `location` are delimited by the first two hyphens;
the location keeps any further hyphens (flagCnt states 0, 1, 2). -/
def icomNameScan : Nat → String → String → String → List (Option Char) → String × String × String
  | _, extType, extNo, extFullName, [] => (extType, extNo, extFullName)
  | flagCnt, extType, extNo, extFullName, c :: rest =>
    if flagCnt = 0 then
      if c ≠ some '-' then icomNameScan 0 (extType ++ optStr c) extNo extFullName rest
      else icomNameScan 1 extType extNo extFullName rest
    else if flagCnt = 1 then
      if c ≠ some '-' then icomNameScan 1 extType (extNo ++ optStr c) extFullName rest
      else icomNameScan 2 extType extNo extFullName rest
    else icomNameScan flagCnt extType extNo (extFullName ++ optStr c) rest

/-- The update-or-append step shared by the intercom and the normal
contact list: on the first candidate the placeholder head record is
mutated in place; on later candidates the first record with the same
extension is updated, and an IndexError on the empty filter result is
caught and turned into an append of a fresh record with ip `NA`.  The
returned strings are `retExtNo`/`retFullNme`, overwritten only when the
looked-up extension matches and the previous full name differs. -/
def listUpdate (extnNumber extNo extFullName extType : String) (firstDatUpdt : Bool)
    (data : List ICRec) (retE retF : String) : Bool × List ICRec × String × String :=
  if firstDatUpdt = false then
    match data with
    | [] => (false, data ++ [⟨extNo, extFullName, extType, "NA"⟩], retE, retF)
    | d0 :: rest =>
      let rets := if extnNumber = extNo ∧ d0.fullname ≠ extFullName
        then (extNo, extFullName) else (retE, retF)
      (true, ⟨extNo, extFullName, extType, d0.ip⟩ :: rest, rets.1, rets.2)
  else
    match data.filter (fun r => r.ext == extNo) with
    | [] => (true, data ++ [⟨extNo, extFullName, extType, "NA"⟩], retE, retF)
    | d0 :: _ =>
      let rets := if extnNumber = extNo ∧ d0.fullname ≠ extFullName
        then (extNo, extFullName) else (retE, retF)
      (true,
        updFirst (fun r => r.ext == extNo)
          (fun r => { r with fullname := extFullName, typ := extType }) data,
        rets.1, rets.2)

/-- State of the synchroniser for intercom extensions: the in-memory
`intercomListData` and the rows persisted to `intercomlist.xml`. -/
structure IcomState where
  intercomListData : List ICRec
  intercomXml : List (String × String × String × String × String)
deriving DecidableEq

/-- The rows written per record: IPADDR (kept only when already set),
LOCATION, CALLID, SERVERID (always `NA`), TYPE. -/
def renderContactRows (data : List ICRec) :
    List (String × String × String × String × String) :=
  data.map (fun r =>
    ((if r.ip ≠ "NA" then r.ip else "NA"), r.fullname, r.ext, "NA", r.typ))

/-- The value `getIntercomList` hands back: on a parse error (and on an
xml write error) the function returns the bare bool `retResult`, which the
caller then fails to unpack; on success it returns the triple
`(True, retExtNo, retFullNme)`. -/
inductive IcomRet where
  | failBool (st : IcomState)
  | ok (retExtNo retFullNme : String) (st : IcomState)
deriving DecidableEq

/-- One category step of the `getIntercomList` loop: only sections whose
name contains `intercomm` or `conferences-` are candidates. -/
def icomStep (extnNumber : String) (acc : Bool × List ICRec × String × String)
    (c : Category) : Bool × List ICRec × String × String :=
  if containsSub "intercomm".data c.name.data || containsSub "conferences-".data c.name.data then
    let parsed := icomNameScan 0 "" "" "" (midSeq c.name.data)
    listUpdate extnNumber parsed.2.1 parsed.2.2 parsed.1 acc.1 acc.2.1 acc.2.2.1 acc.2.2.2
  else acc

/-- Shallow embedding of `getIntercomList(extnNumber, typeUpdt)`.  The
in-memory list is reinitialised to the placeholder before the parse is
attempted, so a parse failure leaves the placeholder, not the previous
collection. -/
def getIntercomList (extnNumber : String) (conf : Option (List Category))
    (st : IcomState) : IcomRet :=
  let st0 : IcomState := { st with intercomListData := [dummyContact] }
  match conf with
  | none => .failBool st0
  | some cats =>
    let res := cats.foldl (icomStep extnNumber) (false, [dummyContact], "", "")
    .ok res.2.2.1 res.2.2.2
      ⟨res.2.1, renderContactRows res.2.1⟩

/-- The character scan extracting the extension type from a users.conf
`fullname` value: characters before the first space are skipped, the
characters after it are collected (spaces included) until a colon, which
breaks the loop.  The flag `extTypeStrt` and the accumulating `extType`
persist across items of one category. -/
def extTypeScan : Bool → String → List (Option Char) → Bool × String
  | strt, acc, [] => (strt, acc)
  | strt, acc, c :: rest =>
    if c = some ' ' ∧ strt = false then extTypeScan true acc rest
    else if c ≠ some ':' ∧ strt = true then extTypeScan strt (acc ++ optStr c) rest
    else if c = some ':' ∧ strt = true then (strt, acc)
    else extTypeScan strt acc rest

/-- The item loop of `getContactList` for one users.conf category:
`fullname` items are scanned for the type; any other item breaks the loop
unless the type so far is `SIP WEBRTC`, in which case a `secret` item
supplies the password and breaks.  `extName` and `extSecret` are NOT reset
between categories and leak across them. -/
def userItemsScan : Bool → String → String → String → List (String × String) →
    Bool × String × String × String
  | strt, extType, extName, extSecret, [] => (strt, extType, extName, extSecret)
  | strt, extType, extName, extSecret, (iname, ival) :: rest =>
    if iname = "fullname" then
      let scanned := extTypeScan strt extType (midSeq ival.data)
      userItemsScan scanned.1 scanned.2 ival extSecret rest
    else if extType ≠ "SIP WEBRTC" then (strt, extType, extName, extSecret)
    else if iname = "secret" then (strt, extType, extName, ival)
    else userItemsScan strt extType extName extSecret rest

/-- The derived type token of a users.conf section when it is the first
section processed (the scan state and carried name/secret are empty). -/
def derivedExtType (c : Category) : String :=
  (userItemsScan false "" "" "" c.items).2.1

/-- The WebRTC variant of the update-or-append step (fields `fullname` and
`pswd` are written; fresh records get ip/sip/avail `NA`). -/
def wrtcUpdate (extnNumber extNumber extName extSecret : String) (first : Bool)
    (data : List WRec) (retE retF : String) : Bool × List WRec × String × String :=
  if first = false then
    match data with
    | [] => (false, data ++ [⟨extNumber, extName, extSecret, "NA", "NA", "NA"⟩], retE, retF)
    | d0 :: rest =>
      let rets := if extnNumber = extNumber ∧ d0.fullname ≠ extName
        then (extNumber, extName) else (retE, retF)
      (true, ⟨extNumber, extName, extSecret, d0.ip, d0.sip, d0.avail⟩ :: rest, rets.1, rets.2)
  else
    match data.filter (fun r => r.ext == extNumber) with
    | [] => (true, data ++ [⟨extNumber, extName, extSecret, "NA", "NA", "NA"⟩], retE, retF)
    | d0 :: _ =>
      let rets := if extnNumber = extNumber ∧ d0.fullname ≠ extName
        then (extNumber, extName) else (retE, retF)
      (true,
        updFirst (fun r => r.ext == extNumber)
          (fun r => { r with fullname := extName, pswd := extSecret }) data,
        rets.1, rets.2)

/-- State carried through the `getContactList` category loop. -/
structure CLoopSt where
  frstNorm : Bool
  frstW : Bool
  extName : String
  extSecret : String
  retE : String
  retF : String
  cData : List ICRec
  wData : List WRec
deriving DecidableEq

/-- The users.conf category loop of `getContactList`.  Sections named
`general` are skipped; per section the type is re-derived from scratch
(`extTypeStrt = False`, `extType = ''`) while the name/secret carry over;
`SIP WEBRTC` sections go to the WebRTC collection only during a `Webrtc`
sync, and during a `Normal` sync every section whose type is not `FXO` —
including `SIP WEBRTC` ones — goes to the normal collection. -/
def contactLoop (extnNumber typeUpdt : String) : List Category → CLoopSt → CLoopSt
  | [], s => s
  | c :: rest, s =>
    if c.name ≠ "general" then
      let r := userItemsScan false "" s.extName s.extSecret c.items
      let extType := r.2.1
      let extName := r.2.2.1
      let extSecret := r.2.2.2
      let s1 :=
        if extType = "SIP WEBRTC" ∧ typeUpdt = "Webrtc" then
          let u := wrtcUpdate extnNumber c.name extName extSecret s.frstW s.wData s.retE s.retF
          { s with
              frstW := u.1
              wData := u.2.1
              retE := u.2.2.1
              retF := u.2.2.2
              extName := extName
              extSecret := extSecret }
        else if extType ≠ "FXO" ∧ typeUpdt = "Normal" then
          let u := listUpdate extnNumber c.name extName extType s.frstNorm s.cData s.retE s.retF
          { s with
              frstNorm := u.1
              cData := u.2.1
              retE := u.2.2.1
              retF := u.2.2.2
              extName := extName
              extSecret := extSecret }
        else { s with extName := extName, extSecret := extSecret }
      contactLoop extnNumber typeUpdt rest s1
    else contactLoop extnNumber typeUpdt rest s

/-- Python `str.replace(pat, rep)`: replace every non-overlapping
occurrence, scanning left to right. -/
def replaceAll (pat rep : List Char) : List Char → List Char
  | [] => []
  | c :: rest =>
    if h : pat.isPrefixOf (c :: rest) ∧ pat ≠ [] then
      rep ++ replaceAll pat rep ((c :: rest).drop pat.length)
    else
      c :: replaceAll pat rep rest
termination_by l => l.length
decreasing_by
  · simp only [List.length_drop, List.length_cons]
    have : 1 ≤ pat.length := List.length_pos.mpr h.2
    omega
  · simp

/-- The item loop of `getContactListFromSip` for one sip.conf category:
the first `callerid` item determines the name (with `<ext>` and quote
characters stripped) and the type (the characters before the first colon,
or the empty string when there is none), then breaks.  Without a
`callerid` item the type stays empty and the name carries over. -/
def sipItems (extNumber extName : String) : List (String × String) → String × String
  | [] => ("", extName)
  | (iname, ival) :: rest =>
    if iname = "callerid" then
      let en1 := replaceAll ("<" ++ extNumber ++ ">").data [] ival.data
      let en2 := replaceAll "\"".data [] en1
      let extType := if en2.contains ':' then String.mk (en2.takeWhile (fun c => c ≠ ':')) else ""
      (extType, String.mk en2)
    else sipItems extNumber extName rest

/-- The sip.conf category loop of `getContactListFromSip`: sections
`general` and `tgprovider` are skipped; during a `Normal` sync entries
whose type is not `FXO` are merged into `contactListData` — the first one
overwrites the head record in place (an IndexError on an empty list is
caught and logged, changing nothing), later ones are appended without any
duplicate check. -/
def sipLoop (typeUpdt : String) : List Category → Bool × String × List ICRec →
    Bool × String × List ICRec
  | [], s => s
  | c :: rest, (frstNorm, extName, data) =>
    if c.name ≠ "general" ∧ c.name ≠ "tgprovider" then
      let r := sipItems c.name extName c.items
      let extType := r.1
      let extName1 := r.2
      if extType ≠ "FXO" ∧ typeUpdt = "Normal" then
        if frstNorm = false then
          match data with
          | [] => sipLoop typeUpdt rest (frstNorm, extName1, data)
          | d0 :: restD =>
            sipLoop typeUpdt rest (true, extName1, ⟨c.name, extName1, extType, d0.ip⟩ :: restD)
        else sipLoop typeUpdt rest (frstNorm, extName1, data ++ [⟨c.name, extName1, extType, "NA"⟩])
      else sipLoop typeUpdt rest (frstNorm, extName1, data)
    else sipLoop typeUpdt rest (frstNorm, extName, data)

/-- Result of `getContactListFromSip`: a parse or IO error on sip.conf
raises SystemExit via `sys.exit(1)`. -/
inductive SipRet where
  | fatal
  | done (frstNorm : Bool) (data : List ICRec)
deriving DecidableEq

/-- Shallow embedding of `getContactListFromSip(typeUpdt, frstNormTypData)`. -/
def getContactListFromSip (typeUpdt : String) (frstNormTypData : Bool)
    (sip : Option (List Category)) (data : List ICRec) : SipRet :=
  match sip with
  | none => .fatal
  | some cats =>
    let s := sipLoop typeUpdt cats (frstNormTypData, "", data)
    .done s.1 s.2.2

/-- State touched by `getContactList`: the two in-memory collections and
the two persisted listings. -/
structure ContactState where
  contactListData : List ICRec
  webRtcContListData : List WRec
  listContactXml : List (String × String × String × String × String)
  registrarXml : List (String × String × String × String × String × String)
deriving DecidableEq

/-- The rows written per WebRTC record: IPADDR, LOCATION, AVAIL, USERNAME,
SIPADDR, PSWD (fields still `NA` are written as `NA`). -/
def renderWebRtcRows (data : List WRec) :
    List (String × String × String × String × String × String) :=
  data.map (fun r =>
    ((if r.ip ≠ "NA" then r.ip else "NA"), r.fullname,
      (if r.avail ≠ "NA" then r.avail else "NA"), r.ext,
      (if r.sip ≠ "NA" then r.sip else "NA"), r.pswd))

/-- Result of `getContactList` as seen by its caller: on a users.conf
parse error the bare bool `retResult` is returned (the caller's tuple
unpacking then raises TypeError); a sip.conf failure raises SystemExit
through the function; on success the triple is returned. -/
inductive ContactRet where
  | failBool (st : ContactState)
  | sysExitRaised (st : ContactState)
  | ok (retExtNo retFullNme : String) (st : ContactState)
deriving DecidableEq

/-- Shallow embedding of `getContactList(extnNumber, typeUpdt)`.  During a
`Normal` sync the in-memory `contactListData` is reinitialised to the
placeholder before users.conf is parsed; the commented-out WebRTC
reinitialisation means a `Webrtc` sync keeps the previous collection. -/
def getContactList (extnNumber typeUpdt : String) (users sip : Option (List Category))
    (st : ContactState) : ContactRet :=
  let cData0 := if typeUpdt = "Normal" then [dummyContact] else st.contactListData
  match users with
  | none => .failBool { st with contactListData := cData0 }
  | some cats =>
    let s := contactLoop extnNumber typeUpdt cats
      ⟨false, false, "", "", "", "", cData0, st.webRtcContListData⟩
    match getContactListFromSip typeUpdt s.frstNorm sip s.cData with
    | .fatal => .sysExitRaised { st with contactListData := s.cData, webRtcContListData := s.wData }
    | .done _ cData1 =>
      if typeUpdt = "Normal" then
        .ok s.retE s.retF
          { st with
              contactListData := cData1
              webRtcContListData := s.wData
              listContactXml := renderContactRows cData1 }
      else
        .ok s.retE s.retF
          { st with
              contactListData := cData1
              webRtcContListData := s.wData
              registrarXml := renderWebRtcRows s.wData }

/-- C4 counterexample: with a previously synced intercom collection, a
parse failure of extensions.conf leaves the durable listing untouched but
the in-memory collection has already been wiped to the placeholder entry,
so it is NOT exactly what it was before the call. -/
theorem C4_counterexample :
    getIntercomList "dummy" none
        ⟨[⟨"1010", "Bilik_SENJATA", "intercomm", "NA"⟩],
          [("NA", "Bilik_SENJATA", "1010", "NA", "intercomm")]⟩
      = .failBool ⟨[dummyContact], [("NA", "Bilik_SENJATA", "1010", "NA", "intercomm")]⟩ ∧
    ([dummyContact] : List ICRec) ≠ [⟨"1010", "Bilik_SENJATA", "intercomm", "NA"⟩] := by
  refine ⟨by decide, by decide⟩

/-- C4 (amended): when the configuration source cannot be located or
parsed, the sync fails and the durable listing is exactly what it was
before the call, but the in-memory collection is reinitialised to the
single placeholder record for kinds NORMAL and INTERCOM before the parse
is attempted; only the WEBRTC collection is left unchanged (its
reinitialisation is commented out). -/
theorem C4_parse_error_keeps_xml_resets_memory :
    (∀ (e : String) (st : IcomState),
      getIntercomList e none st = .failBool { st with intercomListData := [dummyContact] }) ∧
    (∀ (e : String) (sip : Option (List Category)) (st : ContactState),
      getContactList e "Normal" none sip st
        = .failBool { st with contactListData := [dummyContact] }) ∧
    (∀ (e : String) (sip : Option (List Category)) (st : ContactState),
      getContactList e "Webrtc" none sip st = .failBool st) := by
  refine ⟨fun e st => rfl, fun e sip st => rfl, fun e sip st => ?_⟩
  show ContactRet.failBool { st with contactListData :=
    (if ("Webrtc" : String) = "Normal" then [dummyContact] else st.contactListData) }
    = ContactRet.failBool st
  rw [if_neg (by decide)]

/-- C7: the code's own sample comment documents the section name
`intercom-1010-Bilik_SENJATA`, but the candidate filter demands the
substring `intercomm` (or `conferences-`), so the documented sample is
skipped entirely and no record with extension 1010 is produced; with the
double-m spelling the parse does yield extension 1010, display name
`Bilik_SENJATA` (embedded hyphens in the location are preserved), and the
type token taken from the section name. -/
theorem C7_intercom_sample_skipped :
    getIntercomList "dummy" (some [⟨"intercom-1010-Bilik_SENJATA", []⟩])
        ⟨[⟨"7777", "Old", "t", "NA"⟩], []⟩
      = .ok "" "" ⟨[dummyContact], [("NA", "NA", "0000", "NA", "NA")]⟩ ∧
    (∀ r ∈ ([dummyContact] : List ICRec), r.ext ≠ "1010") ∧
    getIntercomList "dummy" (some [⟨"intercomm-1010-Bilik_SENJATA", []⟩])
        ⟨[⟨"7777", "Old", "t", "NA"⟩], []⟩
      = .ok "" ""
          ⟨[⟨"1010", "Bilik_SENJATA", "intercomm", "NA"⟩],
            [("NA", "Bilik_SENJATA", "1010", "NA", "intercomm")]⟩ ∧
    getIntercomList "dummy" (some [⟨"conferences-6300-Meeting-Room-A", []⟩]) ⟨[], []⟩
      = .ok "" ""
          ⟨[⟨"6300", "Meeting-Room-A", "conferences", "NA"⟩],
            [("NA", "Meeting-Room-A", "6300", "NA", "conferences")]⟩ := by
  refine ⟨by decide, by decide, by decide, by decide⟩

/-- C8 counterexample: a users.conf section whose derived type token is
`SIP WEBRTC` does get a NORMAL record during a NORMAL sync (the branch
only excludes type `FXO`), contradicting the claim that no NORMAL record
is produced. -/
theorem C8_counterexample :
    derivedExtType ⟨"6001", [("fullname", "X SIP WEBRTC:Ali")]⟩ = "SIP WEBRTC" ∧
    getContactList "dummy" "Normal"
        (some [⟨"6001", [("fullname", "X SIP WEBRTC:Ali")]⟩]) (some [])
        ⟨[dummyContact], [], [], []⟩
      = .ok "" ""
          ⟨[⟨"6001", "X SIP WEBRTC:Ali", "SIP WEBRTC", "NA"⟩], [],
            [("NA", "X SIP WEBRTC:Ali", "6001", "NA", "SIP WEBRTC")], []⟩ ∧
    ∃ r ∈ ([⟨"6001", "X SIP WEBRTC:Ali", "SIP WEBRTC", "NA"⟩] : List ICRec),
      r.ext = "6001" := by
  refine ⟨by decide, by decide, ⟨"6001", "X SIP WEBRTC:Ali", "SIP WEBRTC", "NA"⟩,
    by decide, by decide⟩

/-- C8 (amended): during a NORMAL sync only sections whose derived type
token is the reserved marker `FXO` are excluded; a section whose derived
type equals the WebRTC marker `SIP WEBRTC` does produce a NORMAL record
for its extension (it reaches the WEBRTC collection only through a
separate Webrtc sync). -/
theorem C8_normal_sync_excludes_only_fxo :
    (∀ (e : String) (c : Category) (st : ContactState),
      c.name ≠ "general" → derivedExtType c = "SIP WEBRTC" →
      ∃ rE rF st', getContactList e "Normal" (some [c]) (some []) st = .ok rE rF st' ∧
        ∃ r ∈ st'.contactListData, r.ext = c.name ∧ r.typ = "SIP WEBRTC") ∧
    (∀ (e : String) (c : Category) (st : ContactState),
      c.name ≠ "general" → c.name ≠ "0000" → derivedExtType c = "FXO" →
      ∃ rE rF st', getContactList e "Normal" (some [c]) (some []) st = .ok rE rF st' ∧
        ∀ r ∈ st'.contactListData, r.ext ≠ c.name) := by
  constructor
  · intro e c st hn ht
    rcases hscan : userItemsScan false "" "" "" c.items with ⟨strt, extType, en, es⟩
    rw [derivedExtType, hscan] at ht
    simp only at ht
    subst ht
    have h1 : ¬("Normal" : String) = "Webrtc" := by decide
    have h2 : ¬("SIP WEBRTC" : String) = "FXO" := by decide
    simp only [getContactList, contactLoop, hscan, ne_eq, hn, not_false_eq_true, if_true,
      listUpdate, getContactListFromSip, sipLoop, h1, h2, and_true, true_and, and_false,
      if_false, dummyContact, not_false_eq_true]
    refine ⟨_, _, _, rfl, ⟨c.name, en, "SIP WEBRTC", "NA"⟩, ?_, rfl, rfl⟩
    exact List.mem_singleton.mpr rfl
  · intro e c st hn h0 ht
    rcases hscan : userItemsScan false "" "" "" c.items with ⟨strt, extType, en, es⟩
    rw [derivedExtType, hscan] at ht
    simp only at ht
    subst ht
    have h1 : ¬("FXO" : String) = "SIP WEBRTC" := by decide
    simp only [getContactList, contactLoop, hscan, ne_eq, hn, not_false_eq_true, if_true,
      getContactListFromSip, sipLoop, h1, false_and, and_false, if_false, eq_self_iff_true,
      not_true, dummyContact]
    refine ⟨_, _, _, rfl, ?_⟩
    intro r hr
    simp only [List.mem_singleton] at hr
    subst hr
    simpa using fun hh => h0 hh.symm

/-- Witness for C8 (amended) at concrete user-profile sections. -/
theorem C8_normal_sync_excludes_only_fxo_witness :
    (∃ rE rF st', getContactList "dummy" "Normal"
        (some [⟨"6001", [("fullname", "X SIP WEBRTC:Ali")]⟩]) (some [])
        ⟨[dummyContact], [], [], []⟩ = .ok rE rF st' ∧
      ∃ r ∈ st'.contactListData,
        r.ext = (Category.mk "6001" [("fullname", "X SIP WEBRTC:Ali")]).name ∧
        r.typ = "SIP WEBRTC") ∧
    (∃ rE rF st', getContactList "dummy" "Normal"
        (some [⟨"7001", [("fullname", "T FXO:Gateway")]⟩]) (some [])
        ⟨[dummyContact], [], [], []⟩ = .ok rE rF st' ∧
      ∀ r ∈ st'.contactListData,
        r.ext ≠ (Category.mk "7001" [("fullname", "T FXO:Gateway")]).name) :=
  ⟨C8_normal_sync_excludes_only_fxo.1 "dummy" ⟨"6001", [("fullname", "X SIP WEBRTC:Ali")]⟩
      ⟨[dummyContact], [], [], []⟩ (by decide) (by decide),
    C8_normal_sync_excludes_only_fxo.2 "dummy" ⟨"7001", [("fullname", "T FXO:Gateway")]⟩
      ⟨[dummyContact], [], [], []⟩ (by decide) (by decide) (by decide)⟩

/-!
## RecordingCatalog and RetentionReaper: getRecordFile

`getRecordFile` enumerates `*.ogg` files, sorts them descending by
modification time, queues every file ranked at or past the retain count
for deletion, parses the names of the retained files with a two-state
scanner, and writes `recordinglist.xml`.  The background thread
`deleteRecordingFile` drains the queue and clears counter, buffer and
busy flag together.
-/

/-- The mutable scanner state of the per-name parse inside
`getRecordFile`: `dataSelect` 0 collects date/time (counting hyphens and
skipping the letters of the `ogg` container), `dataSelect` 1 collects the
participants until the dot. -/
structure ScanMode where
  dataSelect : Nat
  dashCnt : Nat
  tempDT : String
  tempExt : String
deriving DecidableEq

/-- The scanner state at the start of `getRecordFile`. -/
def cleanMode : ScanMode := ⟨0, 0, "", ""⟩

/-- One character step of the recording-name scanner; besides the next
state it emits the entries appended to `dateTimeOfCall` and `extInvol`. -/
def recScanStep (m : ScanMode) (c : Option Char) : ScanMode × List String × List String :=
  if m.dataSelect = 0 then
    if c ≠ some 'o' ∧ c ≠ some 'g' then
      if c = some '-' then
        if m.dashCnt + 1 < 4 then
          ({ m with dashCnt := m.dashCnt + 1, tempDT := m.tempDT ++ optStr c }, [], [])
        else ({ m with dashCnt := m.dashCnt + 1 }, [], [])
      else if m.dashCnt < 4 then ({ m with tempDT := m.tempDT ++ optStr c }, [], [])
      else if m.dashCnt = 4 then
        ({ m with dataSelect := 1, dashCnt := 0, tempExt := m.tempExt ++ optStr c },
          [m.tempDT], [])
      else (m, [], [])
    else (m, [], [])
  else if m.dataSelect = 1 then
    if c ≠ some '.' then ({ m with tempExt := m.tempExt ++ optStr c }, [], [])
    else ({ m with dataSelect := 0, tempDT := "", tempExt := "" }, [], [m.tempExt])
  else (m, [], [])

/-- The scanner folded over a sequence of one-character slices,
concatenating the emissions in order. -/
def recScan (m : ScanMode) : List (Option Char) → ScanMode × List String × List String
  | [] => (m, [], [])
  | c :: rest =>
    let step := recScanStep m c
    let tail := recScan step.1 rest
    (tail.1, step.2.1 ++ tail.2.1, step.2.2 ++ tail.2.2)

/-- The scan of one file name (the `for b in range(0, len+1)` loop). -/
def scanName (m : ScanMode) (name : String) : ScanMode × List String × List String :=
  recScan m (midSeq name.data)

/-- A recording name is well formed for the scanner when, started clean,
the scan emits exactly one date/time entry and one participants entry and
leaves the scanner clean again (e.g. `2021-10-14-0302-6004-6000.ogg`). -/
def wellFormedName (name : String) : Bool :=
  let r := scanName cleanMode name
  decide (r.1 = cleanMode) && decide (r.2.1.length = 1) && decide (r.2.2.length = 1)

/-- The date/time entry a well-formed name contributes. -/
def dtOf (name : String) : String := (scanName cleanMode name).2.1.headD ""

/-- The participants entry a well-formed name contributes. -/
def extOf (name : String) : String := (scanName cleanMode name).2.2.headD ""

/-- The state of the `for a in range(totRecordFile)` loop over the sorted
file names: the deletion bookkeeping (global) plus the locals
`realTotRecFile`, scanner state and parsed arrays. -/
structure LoopSt where
  deleteProc : Bool
  queue : List String
  cnt : Nat
  realTot : Nat
  mode : ScanMode
  dts : List String
  exts : List String
deriving DecidableEq

/-- The per-file loop: a file whose rank is at or past the retain count
(and whose name is nonempty) is queued for deletion and sets the busy
flag; otherwise `realTotRecFile` records rank+1 and the name is scanned. -/
def recLoop (retain : Nat) : Nat → List String → LoopSt → LoopSt
  | _, [], s => s
  | a, n :: rest, s =>
    if retain ≤ a ∧ n ≠ "" then
      recLoop retain (a + 1) rest
        { s with deleteProc := true, queue := s.queue ++ [n], cnt := s.cnt + 1 }
    else
      let scanned := recScan s.mode (midSeq n.data)
      recLoop retain (a + 1) rest
        { s with
            realTot := a + 1
            mode := scanned.1
            dts := s.dts ++ scanned.2.1
            exts := s.exts ++ scanned.2.2 }

/-- The deletion-queue state plus the persisted `recordinglist.xml` rows
(DATETIME, EXTENSIONS, FILEPATH). -/
structure RecState where
  deleteProc : Bool
  fileNeedToDelete : List String
  fileToDeleteCnt : Nat
  recListXml : List (String × String × String)
deriving DecidableEq

/-- Python's `sorted(..., key=lambda t: -st_mtime)`: ascending in the
negated modification time.  A stable insertion sort models Python's
stable sort. -/
def mtimeRel (x y : String × Int) : Prop := -x.2 ≤ -y.2

instance : DecidableRel mtimeRel :=
  fun x y => inferInstanceAs (Decidable (-x.2 ≤ -y.2))

instance : IsTotal (String × Int) mtimeRel :=
  ⟨fun _ _ => le_total _ _⟩

instance : IsTrans (String × Int) mtimeRel :=
  ⟨fun _ _ _ hab hbc => le_trans hab hbc⟩

/-- Shallow embedding of `getRecordFile()`.  `files` is the directory
enumeration (base name, modification time); `retain` is
`totRetainRecFile`.  When the delete thread is busy the function logs and
returns False without touching anything.  Otherwise the loop runs, and
the xml write happens unless indexing `dateTimeOfCall[a]`/`extInvol[a]`
raises IndexError (malformed names), in which case the write is skipped
but the queue updates stay. -/
def getRecordFile (retain : Nat) (files : List (String × Int)) (st : RecState) :
    Bool × RecState :=
  let recordFile := (List.insertionSort mtimeRel files).map (fun f => f.1)
  if st.deleteProc = false then
    let s := recLoop retain 0 recordFile
      ⟨false, st.fileNeedToDelete, st.fileToDeleteCnt, 0, cleanMode, [], []⟩
    let st1 : RecState := ⟨s.deleteProc, s.queue, s.cnt, st.recListXml⟩
    if 0 < s.realTot then
      if s.realTot ≤ s.dts.length ∧ s.realTot ≤ s.exts.length ∧
          s.realTot ≤ recordFile.length then
        (true, { st1 with recListXml :=
          ((s.dts.take s.realTot).zip ((s.exts.take s.realTot).zip
            (recordFile.take s.realTot))).map (fun p => (p.1, p.2.1, p.2.2)) })
      else (false, st1)
    else (true, { st1 with recListXml := [("NA", "NA", "NA")] })
  else (false, st)

/-- One completed drain cycle of the `deleteRecordingFile` thread: when
the busy flag is set it deletes the queued files (indexing
`fileNeedToDelete[a]` for `a < fileToDeleteCnt`, which raises and kills
the cycle when the counter exceeds the queue), then clears buffer,
counter and flag together. -/
def reaperCycle (st : RecState) : Option RecState :=
  if st.deleteProc = true then
    if st.fileToDeleteCnt ≤ st.fileNeedToDelete.length then
      some { st with fileNeedToDelete := [], fileToDeleteCnt := 0, deleteProc := false }
    else none
  else some st

/-- The deletion-queue invariant of claim C10. -/
def recInv (st : RecState) : Prop :=
  st.fileToDeleteCnt = st.fileNeedToDelete.length ∧
  (st.fileNeedToDelete ≠ [] → st.deleteProc = true)

/-- The per-file loop only ever appends to the deletion queue, increments
the counter once per appended name, and raises the busy flag exactly when
it appended something. -/
theorem recLoop_queue_delta (retain : Nat) :
    ∀ (names : List String) (a : Nat) (s : LoopSt),
    ∃ Δ : List String,
      (recLoop retain a names s).queue = s.queue ++ Δ ∧
      (recLoop retain a names s).cnt = s.cnt + Δ.length ∧
      (recLoop retain a names s).deleteProc = (s.deleteProc || !Δ.isEmpty) := by
  intro names
  induction names with
  | nil =>
    intro a s
    exact ⟨[], by simp [recLoop], by simp [recLoop], by simp [recLoop]⟩
  | cons n rest ih =>
    intro a s
    by_cases h : retain ≤ a ∧ n ≠ ""
    · obtain ⟨Δ, h1, h2, h3⟩ := ih (a + 1)
        { s with deleteProc := true, queue := s.queue ++ [n], cnt := s.cnt + 1 }
      refine ⟨n :: Δ, ?_, ?_, ?_⟩
      · simp only [recLoop, if_pos h]
        rw [h1]; simp
      · simp only [recLoop, if_pos h]
        rw [h2]; simp; omega
      · simp only [recLoop, if_pos h]
        rw [h3]; simp
    · obtain ⟨Δ, h1, h2, h3⟩ := ih (a + 1)
        { s with
            realTot := a + 1
            mode := (recScan s.mode (midSeq n.data)).1
            dts := s.dts ++ (recScan s.mode (midSeq n.data)).2.1
            exts := s.exts ++ (recScan s.mode (midSeq n.data)).2.2 }
      refine ⟨Δ, ?_, ?_, ?_⟩
      · simp only [recLoop, if_neg h]
        rw [h1]
      · simp only [recLoop, if_neg h]
        rw [h2]
      · simp only [recLoop, if_neg h]
        rw [h3]

/-- When the busy flag is down, a `getRecordFile` call appends some batch
to the queue, bumps the counter by its length, and raises the flag
exactly when the batch is nonempty. -/
theorem getRecordFile_queue_delta (retain : Nat) (files : List (String × Int))
    (st : RecState) (hb : st.deleteProc = false) :
    ∃ Δ : List String,
      (getRecordFile retain files st).2.fileNeedToDelete = st.fileNeedToDelete ++ Δ ∧
      (getRecordFile retain files st).2.fileToDeleteCnt = st.fileToDeleteCnt + Δ.length ∧
      (getRecordFile retain files st).2.deleteProc = (false || !Δ.isEmpty) := by
  obtain ⟨Δ, h1, h2, h3⟩ := recLoop_queue_delta retain
    ((List.insertionSort mtimeRel files).map (fun f => f.1)) 0
    ⟨false, st.fileNeedToDelete, st.fileToDeleteCnt, 0, cleanMode, [], []⟩
  refine ⟨Δ, ?_, ?_, ?_⟩ <;>
    · simp only [getRecordFile, hb, if_true]
      split
      · split
        · exact by simpa using by first | exact h1 | exact h2 | exact h3
        · exact by simpa using by first | exact h1 | exact h2 | exact h3
      · exact by simpa using by first | exact h1 | exact h2 | exact h3

/-- C10: the deletion-queue invariant — the counter equals the queue
length, and a nonempty queue implies the busy flag — is preserved by
every completed `getRecordFile` call and every completed drain cycle of
the delete thread. -/
theorem C10_deletion_queue_invariant (retain : Nat) (files : List (String × Int))
    (st : RecState) (h : recInv st) :
    recInv (getRecordFile retain files st).2 ∧
    (∀ st', reaperCycle st = some st' → recInv st') := by
  constructor
  · by_cases hb : st.deleteProc = false
    · have hq : st.fileNeedToDelete = [] := by
        by_contra hne
        rw [h.2 hne] at hb
        exact absurd hb (by simp)
      obtain ⟨Δ, h1, h2, h3⟩ := getRecordFile_queue_delta retain files st hb
      constructor
      · rw [h1, h2, h.1, hq]
        simp
      · intro hne
        rw [h3]
        rw [h1, hq] at hne
        simp only [List.nil_append] at hne
        simp [List.isEmpty_iff, hne]
    · have hb' : st.deleteProc = true := by
        revert hb
        cases st.deleteProc <;> simp
      have : getRecordFile retain files st = (false, st) := by
        simp [getRecordFile, hb']
      rw [this]
      exact h
  · intro st' h'
    unfold reaperCycle at h'
    by_cases hb : st.deleteProc = true
    · rw [if_pos hb] at h'
      by_cases hc : st.fileToDeleteCnt ≤ st.fileNeedToDelete.length
      · rw [if_pos hc] at h'
        obtain rfl := Option.some_injective _ h'
        exact ⟨rfl, by simp⟩
      · rw [if_neg hc] at h'
        exact absurd h' (by simp)
    · rw [if_neg hb] at h'
      obtain rfl := Option.some_injective _ h'
      exact h

/-- Witness for C10 at a concrete state and directory. -/
theorem C10_deletion_queue_invariant_witness :
    recInv (getRecordFile 1 [("2021-10-14-0302-6004-6000.ogg", 5)] ⟨false, [], 0, []⟩).2 ∧
    (∀ st', reaperCycle ⟨false, [], 0, []⟩ = some st' → recInv st') :=
  C10_deletion_queue_invariant 1 [("2021-10-14-0302-6004-6000.ogg", 5)]
    ⟨false, [], 0, []⟩ ⟨rfl, by simp⟩

/-- A singleton list is its default head. -/
theorem length_eq_one_headD {l : List String} (h : l.length = 1) : l = [l.headD ""] := by
  cases l with
  | nil => simp at h
  | cons x xs =>
    cases xs with
    | nil => rfl
    | cons y ys => simp at h

/-- A well-formed recording name scans from the clean state back to the
clean state, emitting exactly its date/time and participants entries. -/
theorem wellFormed_scan (n : String) (h : wellFormedName n = true) :
    scanName cleanMode n = (cleanMode, [dtOf n], [extOf n]) := by
  rcases hs : scanName cleanMode n with ⟨m, dts, exts⟩
  simp only [wellFormedName, hs, Bool.and_eq_true, decide_eq_true_eq] at h
  obtain ⟨⟨hm, hd⟩, he⟩ := h
  subst hm
  simp only [dtOf, extOf, hs]
  conv_lhs => rw [length_eq_one_headD hd, length_eq_one_headD he]

/-- A well-formed recording name is nonempty (the empty name emits
nothing). -/
theorem wellFormed_ne_empty (n : String) (h : wellFormedName n = true) : n ≠ "" := by
  intro hn
  subst hn
  exact absurd h (by decide)

/-- The per-file loop over the retained prefix of the listing: every file
ranked below the retain count is scanned, contributing its parsed entries
in order, and the deletion bookkeeping is untouched. -/
theorem recLoop_keep (retain : Nat) :
    ∀ (A B : List String) (a : Nat) (s : LoopSt),
    (∀ n ∈ A, wellFormedName n = true) → s.mode = cleanMode → a + A.length ≤ retain →
    recLoop retain a (A ++ B) s
      = recLoop retain (a + A.length) B
          ⟨s.deleteProc, s.queue, s.cnt,
            (if A.isEmpty then s.realTot else a + A.length), cleanMode,
            s.dts ++ A.map dtOf, s.exts ++ A.map extOf⟩ := by
  intro A
  induction A with
  | nil =>
    intro B a s _ hm _
    simp only [List.nil_append, List.length_nil, Nat.add_zero, List.isEmpty_nil, if_true,
      List.map_nil, List.append_nil]
    rw [← hm]
  | cons n A' ih =>
    intro B a s hwf hm hle
    have hlt : ¬(retain ≤ a ∧ n ≠ "") := by
      rintro ⟨hra, _⟩
      simp only [List.length_cons] at hle
      omega
    have hscan : recScan s.mode (midSeq n.data) = (cleanMode, [dtOf n], [extOf n]) := by
      rw [hm]
      exact wellFormed_scan n (hwf n (List.mem_cons_self n A'))
    simp only [List.cons_append, recLoop, if_neg hlt, hscan, List.append_eq]
    rw [ih B (a + 1)
      ⟨s.deleteProc, s.queue, s.cnt, a + 1, cleanMode, s.dts ++ [dtOf n], s.exts ++ [extOf n]⟩
      (fun x hx => hwf x (List.mem_cons_of_mem n hx)) rfl
      (by simp only [List.length_cons] at hle; omega)]
    have hidx : a + 1 + A'.length = a + (n :: A').length := by simp; omega
    rw [hidx]
    congr 1
    cases A' with
    | nil => simp
    | cons y ys => simp

/-- The per-file loop past the retain count, on nonempty names: every file
is queued for deletion in listing order, the counter counts them, and the
busy flag is raised when any were queued. -/
theorem recLoop_drop (retain : Nat) :
    ∀ (B : List String) (a : Nat) (s : LoopSt),
    retain ≤ a → (∀ n ∈ B, n ≠ "") →
    recLoop retain a B s
      = ⟨s.deleteProc || !B.isEmpty, s.queue ++ B, s.cnt + B.length,
          s.realTot, s.mode, s.dts, s.exts⟩ := by
  intro B
  induction B with
  | nil =>
    intro a s _ _
    simp [recLoop]
  | cons n B' ih =>
    intro a s ha hne
    have hcond : retain ≤ a ∧ n ≠ "" := ⟨ha, hne n (List.mem_cons_self n B')⟩
    simp only [recLoop, if_pos hcond]
    rw [ih (a + 1) _ (by omega) (fun x hx => hne x (List.mem_cons_of_mem n hx))]
    simp
    omega

/-- The xml rows built by indexing three aligned arrays. -/
theorem zip_map_triple (f g : String → String) :
    ∀ (A : List String),
    ((A.map f).zip ((A.map g).zip A)).map (fun p => (p.1, p.2.1, p.2.2))
      = A.map (fun n => (f n, g n, n))
  | [] => rfl
  | n :: A' => by
    simp only [List.map_cons, List.zip_cons_cons]
    rw [← zip_map_triple f g A']

/-- C5 counterexample: the claim fails at retain count 0.  With one
well-formed recording and R = 0, the file is queued for deletion (L − R =
1, as claimed) but the written catalog is the single `NA` sentinel row,
not an empty list of 0 entries. -/
theorem C5_counterexample :
    wellFormedName "2021-10-14-0302-6004-6000.ogg" = true ∧
    (getRecordFile 0 [("2021-10-14-0302-6004-6000.ogg", 5)]
        ⟨false, [], 0, []⟩).2.fileNeedToDelete = ["2021-10-14-0302-6004-6000.ogg"] ∧
    (getRecordFile 0 [("2021-10-14-0302-6004-6000.ogg", 5)]
        ⟨false, [], 0, []⟩).2.recListXml = [("NA", "NA", "NA")] ∧
    (getRecordFile 0 [("2021-10-14-0302-6004-6000.ogg", 5)]
        ⟨false, [], 0, []⟩).2.recListXml.length ≠ 0 := by
  refine ⟨by decide, by decide, by decide, by decide⟩

/-- C5 (amended): for every retain count R ≥ 1 and every recordings
directory holding L > R files with well-formed names and pairwise
distinct modification times, a single non-busy refresh succeeds, writes a
catalog of exactly the R most recent files in strictly descending
modification-time order (each row carrying the parsed date/time,
participants and file name), and appends exactly the other L − R file
names to the deletion queue. -/
theorem C5_catalog_retention (retain : Nat) (files : List (String × Int)) (st : RecState)
    (hbusy : st.deleteProc = false) (hret : 1 ≤ retain) (hlen : retain < files.length)
    (hwf : ∀ f ∈ files, wellFormedName f.1 = true)
    (hdist : (files.map (fun f => f.2)).Pairwise (· ≠ ·)) :
    ∃ S : List (String × Int),
      S.Perm files ∧
      (S.map (fun f => f.2)).Pairwise (· > ·) ∧
      (getRecordFile retain files st).1 = true ∧
      (getRecordFile retain files st).2.recListXml
        = (S.take retain).map (fun f => (dtOf f.1, extOf f.1, f.1)) ∧
      (getRecordFile retain files st).2.recListXml.length = retain ∧
      (getRecordFile retain files st).2.fileNeedToDelete
        = st.fileNeedToDelete ++ (S.drop retain).map (fun f => f.1) ∧
      ((S.drop retain).map (fun f => f.1)).length = files.length - retain := by
  have hperm : (List.insertionSort mtimeRel files).Perm files :=
    List.perm_insertionSort mtimeRel files
  have hsorted : List.Pairwise mtimeRel (List.insertionSort mtimeRel files) :=
    List.sorted_insertionSort mtimeRel files
  refine ⟨List.insertionSort mtimeRel files, hperm, ?_, ?_⟩
  · have h1 : ((List.insertionSort mtimeRel files).map (fun f => f.2)).Perm
        (files.map (fun f => f.2)) := hperm.map _
    have h2 : ((List.insertionSort mtimeRel files).map (fun f => f.2)).Pairwise (· ≠ ·) :=
      (h1.pairwise_iff (fun h => h.symm)).mpr hdist
    refine List.pairwise_map.mpr ?_
    refine ((hsorted.and (List.pairwise_map.mp h2)).imp ?_)
    rintro a b ⟨hle, hne⟩
    simp only [mtimeRel] at hle
    have : b.2 ≤ a.2 := by omega
    exact lt_of_le_of_ne this (Ne.symm hne)
  · set S := List.insertionSort mtimeRel files with hS
    set recordFile := S.map (fun f => f.1) with hrf
    have hrfLen : recordFile.length = files.length := by
      rw [hrf, List.length_map, hperm.length_eq]
    set A := recordFile.take retain with hA
    set B := recordFile.drop retain with hB
    have hAB : A ++ B = recordFile := List.take_append_drop _ _
    have hAlen : A.length = retain := by
      rw [hA, List.length_take]
      omega
    have hAwf : ∀ n ∈ A, wellFormedName n = true := by
      intro n hn
      have hn' : n ∈ recordFile := List.take_subset _ _ hn
      obtain ⟨f, hf, rfl⟩ := List.mem_map.mp hn'
      exact hwf f (hperm.subset hf)
    have hBne : ∀ n ∈ B, n ≠ "" := by
      intro n hn
      have hn' : n ∈ recordFile := List.drop_subset _ _ hn
      obtain ⟨f, hf, rfl⟩ := List.mem_map.mp hn'
      exact wellFormed_ne_empty _ (hwf f (hperm.subset hf))
    have hAne : A.isEmpty = false := by
      cases hAe : A with
      | nil => rw [hAe] at hAlen; simp at hAlen; omega
      | cons x xs => simp
    have hloop : recLoop retain 0 recordFile
        ⟨false, st.fileNeedToDelete, st.fileToDeleteCnt, 0, cleanMode, [], []⟩
        = ⟨!B.isEmpty, st.fileNeedToDelete ++ B, st.fileToDeleteCnt + B.length, retain,
            cleanMode, A.map dtOf, A.map extOf⟩ := by
      rw [← hAB]
      rw [recLoop_keep retain A B 0 _ hAwf rfl (by omega)]
      rw [recLoop_drop retain B (0 + A.length) _ (by omega) hBne]
      simp [hAne, hAlen]
    have hguard : retain ≤ (A.map dtOf).length ∧ retain ≤ (A.map extOf).length ∧
        retain ≤ recordFile.length := by
      constructor
      · rw [List.length_map, hAlen]
      constructor
      · rw [List.length_map, hAlen]
      · omega
    have hmain : getRecordFile retain files st
        = (true, ⟨!B.isEmpty, st.fileNeedToDelete ++ B, st.fileToDeleteCnt + B.length,
            A.map (fun n => (dtOf n, extOf n, n))⟩) := by
      simp only [getRecordFile, hbusy, if_true, ← hS, ← hrf, hloop]
      rw [if_pos (by omega : (0:Nat) < retain), if_pos hguard]
      have ht1 : (A.map dtOf).take retain = A.map dtOf :=
        List.take_of_length_le (by rw [List.length_map, hAlen])
      have ht2 : (A.map extOf).take retain = A.map extOf :=
        List.take_of_length_le (by rw [List.length_map, hAlen])
      have ht3 : recordFile.take retain = A := rfl
      rw [ht1, ht2, ht3, zip_map_triple]
    rw [hmain]
    have hAmap : A = (S.take retain).map (fun f => f.1) := by
      rw [hA, hrf, List.map_take]
    have hBmap : B = (S.drop retain).map (fun f => f.1) := by
      rw [hB, hrf, List.map_drop]
    refine ⟨rfl, ?_, ?_, ?_, ?_⟩
    · rw [hAmap, List.map_map]
      rfl
    · simp only [List.length_map, hAlen]
    · rw [hBmap]
    · rw [← hBmap, hB, List.length_drop, hrfLen]

/-- Witness for C5 (amended) at a concrete two-file directory with
retain count 1. -/
theorem C5_catalog_retention_witness :
    ∃ S : List (String × Int),
      S.Perm [("2021-10-14-0302-6004-6000.ogg", 5), ("2021-10-13-0302-6004-6000.ogg", 3)] ∧
      (S.map (fun f => f.2)).Pairwise (· > ·) ∧
      (getRecordFile 1 [("2021-10-14-0302-6004-6000.ogg", 5),
        ("2021-10-13-0302-6004-6000.ogg", 3)] ⟨false, [], 0, []⟩).1 = true ∧
      (getRecordFile 1 [("2021-10-14-0302-6004-6000.ogg", 5),
        ("2021-10-13-0302-6004-6000.ogg", 3)] ⟨false, [], 0, []⟩).2.recListXml
        = (S.take 1).map (fun f => (dtOf f.1, extOf f.1, f.1)) ∧
      (getRecordFile 1 [("2021-10-14-0302-6004-6000.ogg", 5),
        ("2021-10-13-0302-6004-6000.ogg", 3)] ⟨false, [], 0, []⟩).2.recListXml.length = 1 ∧
      (getRecordFile 1 [("2021-10-14-0302-6004-6000.ogg", 5),
        ("2021-10-13-0302-6004-6000.ogg", 3)] ⟨false, [], 0, []⟩).2.fileNeedToDelete
        = ([] : List String) ++ (S.drop 1).map (fun f => f.1) ∧
      ((S.drop 1).map (fun f => f.1)).length
        = ([("2021-10-14-0302-6004-6000.ogg", (5:Int)),
            ("2021-10-13-0302-6004-6000.ogg", 3)] : List (String × Int)).length - 1 :=
  C5_catalog_retention 1
    [("2021-10-14-0302-6004-6000.ogg", 5), ("2021-10-13-0302-6004-6000.ogg", 3)]
    ⟨false, [], 0, []⟩ rfl (by decide) (by decide) (by decide) (by decide)

/-!
## Route handlers

The Flask routes wrap each operation in a bare `try/except` (except
`terminateGivenCall`, which has none): any exception — including the
TypeError raised by unpacking a bare-bool return and, in Python 2, even
the SystemExit raised by `sys.exit(1)` in `getContactListFromSip` — is
turned into the `updateFailed` payload `{type: Update, status: FAILED}`.
-/

/-- One entry of the global `listUpdtData` table. -/
structure UpdtRec where
  typ : String
  status : String
  ext : String
  fullname : String
deriving DecidableEq

/-- The initial `listUpdtData`. -/
def listUpdtData0 : List UpdtRec :=
  [⟨"Normal", "SUCCESFULL", "0000", "NA"⟩, ⟨"Webrtc", "SUCCESFULL", "0000", "NA"⟩,
    ⟨"Intercomm", "SUCCESFULL", "0000", "NA"⟩, ⟨"Recording", "SUCCESFULL", "0000", "NA"⟩]

/-- What a route hands back: the `updateFailed` payload from the bare
except, or the jsonified filtered record list. -/
inductive RouteOut where
  | updateFailedOut
  | payload (records : List UpdtRec)
deriving DecidableEq

/-- Shallow embedding of the `/updatedrecordlist/<statustype>` route:
refresh the recording catalog and report SUCCESFULL or FAILED on the
matching `listUpdtData` record. -/
def updatedRecList (statustype : String) (retain : Nat) (files : List (String × Int))
    (lst : List UpdtRec) (rst : RecState) : RouteOut × List UpdtRec × RecState :=
  match lst.filter (fun u => u.typ == statustype) with
  | [] => (.updateFailedOut, lst, rst)
  | u0 :: _ =>
    if u0.typ = "Recording" then
      let res := getRecordFile retain files rst
      let newStatus := if res.1 then "SUCCESFULL" else "FAILED"
      let lst1 := updFirst (fun u => u.typ == statustype)
        (fun u => { u with status := newStatus }) lst
      (.payload (lst1.filter (fun u => u.typ == statustype)), lst1, res.2)
    else (.payload (lst.filter (fun u => u.typ == statustype)), lst, rst)

/-- Shallow embedding of the `/updatedicomlist/<statustype>/<extNo>`
route: resync the intercom list; a bare-bool return from a parse error
fails the tuple unpacking and the bare except answers `updateFailed`. -/
def updatedIComList (statustype extNo : String) (conf : Option (List Category))
    (lst : List UpdtRec) (ist : IcomState) : RouteOut × List UpdtRec × IcomState :=
  match lst.filter (fun u => u.typ == statustype) with
  | [] => (.updateFailedOut, lst, ist)
  | u0 :: _ =>
    if u0.typ = "Intercomm" then
      match getIntercomList extNo conf ist with
      | .failBool ist1 => (.updateFailedOut, lst, ist1)
      | .ok retE retF ist1 =>
        let newExt := if retE ≠ "" then retE else "NA"
        let newFn := if retF ≠ "" then retF else "NA"
        let lst1 := updFirst (fun u => u.typ == statustype)
          (fun u => { u with ext := newExt, fullname := newFn, status := "SUCCESFULL" }) lst
        (.payload (lst1.filter (fun u => u.typ == statustype)), lst1, ist1)
    else (.payload (lst.filter (fun u => u.typ == statustype)), lst, ist)

/-- Shallow embedding of the `/updatedlist/<statustype>/<extNo>` route:
resync the normal or WebRTC contact list; both the bare-bool TypeError of
a users.conf parse error and the SystemExit of a sip.conf failure are
caught by the bare except and answered with `updateFailed`. -/
def updatedList (statustype extNo : String) (users sip : Option (List Category))
    (lst : List UpdtRec) (cst : ContactState) : RouteOut × List UpdtRec × ContactState :=
  match lst.filter (fun u => u.typ == statustype) with
  | [] => (.updateFailedOut, lst, cst)
  | u0 :: _ =>
    if u0.typ = "Normal" ∨ u0.typ = "Webrtc" then
      match getContactList extNo u0.typ users sip cst with
      | .failBool cst1 => (.updateFailedOut, lst, cst1)
      | .sysExitRaised cst1 => (.updateFailedOut, lst, cst1)
      | .ok retE retF cst1 =>
        let newExt := if retE ≠ "" then retE else "NA"
        let newFn := if retF ≠ "" then retF else "NA"
        let lst1 := updFirst (fun u => u.typ == statustype)
          (fun u => { u with ext := newExt, fullname := newFn, status := "SUCCESFULL" }) lst
        (.payload (lst1.filter (fun u => u.typ == statustype)), lst1, cst1)
    else (.payload (lst.filter (fun u => u.typ == statustype)), lst, cst)

/-- Shallow embedding of the `/deleterecords/<statustype>/<filedetail>`
route: delete the named file (`deleteOk` is the rm command's reported
stderr being None), then on success refresh the catalog and report
SUCCESFULL regardless of the refresh's own result; on delete failure
report FAILED without refreshing. -/
def deleteRecData (statustype filedetail : String) (deleteOk : Bool) (retain : Nat)
    (files : List (String × Int)) (lst : List UpdtRec) (rst : RecState) :
    RouteOut × List UpdtRec × RecState :=
  match lst.filter (fun u => u.typ == statustype) with
  | [] => (.updateFailedOut, lst, rst)
  | u0 :: _ =>
    if u0.typ = "Recording" then
      if deleteOk then
        let res := getRecordFile retain files rst
        let lst1 := updFirst (fun u => u.typ == statustype)
          (fun u => { u with status := "SUCCESFULL" }) lst
        (.payload (lst1.filter (fun u => u.typ == statustype)), lst1, res.2)
      else
        let lst1 := updFirst (fun u => u.typ == statustype)
          (fun u => { u with status := "FAILED" }) lst
        (.payload (lst1.filter (fun u => u.typ == statustype)), lst1, rst)
    else (.payload (lst.filter (fun u => u.typ == statustype)), lst, rst)

/-- C6 counterexample: with the busy flag set, the recording refresh route
reports status FAILED — the code never produces a BUSY status distinct
from FAILED — while the persisted listing is indeed unchanged. -/
theorem C6_counterexample :
    (updatedRecList "Recording" 10 [] listUpdtData0
        ⟨true, ["x.ogg"], 1, [("a", "b", "c.ogg")]⟩).1
      = .payload [⟨"Recording", "FAILED", "0000", "NA"⟩] ∧
    ("FAILED" : String) ≠ "BUSY" ∧
    (updatedRecList "Recording" 10 [] listUpdtData0
        ⟨true, ["x.ogg"], 1, [("a", "b", "c.ogg")]⟩).2.2
      = ⟨true, ["x.ogg"], 1, [("a", "b", "c.ogg")]⟩ := by
  refine ⟨by decide, by decide, by decide⟩

/-- A busy deletion queue makes the recording refresh route answer FAILED
on the matching record and leave the recording state untouched. -/
theorem busy_refresh_failed (retain : Nat) (files : List (String × Int))
    (lst : List UpdtRec) (rst : RecState) (u0 : UpdtRec)
    (hb : rst.deleteProc = true)
    (hf : lst.filter (fun u => u.typ == "Recording") = [u0]) :
    (updatedRecList "Recording" retain files lst rst).1
      = .payload [{ u0 with status := "FAILED" }] ∧
    (updatedRecList "Recording" retain files lst rst).2.2 = rst := by
  have hu0 : u0.typ = "Recording" := by
    have hmem : u0 ∈ lst.filter (fun u => u.typ == "Recording") := by
      rw [hf]
      exact List.mem_singleton.mpr rfl
    simpa using (List.mem_filter.mp hmem).2
  have hgr : getRecordFile retain files rst = (false, rst) := by
    rw [getRecordFile]
    rw [if_neg (by rw [hb]; simp)]
  have hupd := filter_updFirst (fun (u : UpdtRec) => u.typ == "Recording")
    (fun u => { u with status := "FAILED" }) (fun a => rfl) hf
  constructor <;>
    simp only [updatedRecList, hf, hu0, if_true, hgr, Bool.false_eq_true, if_false, hupd]

/-- C6 (amended): for every state with the deletion busy flag set, the
recording refresh route returns status FAILED (there is no separate BUSY
status) and the whole recording state — the persisted catalog listing
included — is byte-for-byte unchanged. -/
theorem C6_busy_returns_failed (retain : Nat) (files : List (String × Int))
    (lst : List UpdtRec) (rst : RecState) (u0 : UpdtRec)
    (hb : rst.deleteProc = true)
    (hf : lst.filter (fun u => u.typ == "Recording") = [u0]) :
    (updatedRecList "Recording" retain files lst rst).1
      = .payload [{ u0 with status := "FAILED" }] ∧
    (updatedRecList "Recording" retain files lst rst).2.2 = rst :=
  busy_refresh_failed retain files lst rst u0 hb hf

/-- Witness for C6 (amended) at a concrete busy state. -/
theorem C6_busy_returns_failed_witness :
    (updatedRecList "Recording" 3 [] listUpdtData0
        ⟨true, ["x.ogg"], 1, [("a", "b", "c.ogg")]⟩).1
      = .payload [{ UpdtRec.mk "Recording" "SUCCESFULL" "0000" "NA" with status := "FAILED" }] ∧
    (updatedRecList "Recording" 3 [] listUpdtData0
        ⟨true, ["x.ogg"], 1, [("a", "b", "c.ogg")]⟩).2.2
      = ⟨true, ["x.ogg"], 1, [("a", "b", "c.ogg")]⟩ :=
  C6_busy_returns_failed 3 [] listUpdtData0 ⟨true, ["x.ogg"], 1, [("a", "b", "c.ogg")]⟩
    ⟨"Recording", "SUCCESFULL", "0000", "NA"⟩ rfl (by decide)

/-- C3 counterexample: a terminate request whose requestId is not in the
ChannelStatus table does not produce a structured failure result — the
IndexError on `hgup[0]` escapes the operation unhandled. -/
theorem C3_counterexample :
    ([⟨"000", "0000", "IDLE"⟩] : List HangupRec).filter (fun r => r.id == "999") = [] ∧
    (terminateGivenCall "999" (some "100") ("SIP/100-7!q!".data) true true
        [⟨"000", "0000", "IDLE"⟩]).outcome = .unhandled := by
  refine ⟨by decide, by decide⟩

/-- C3 (amended): every error of the taxonomy is recovered at the
operation boundary into a structured failure result — a transport error
on the channel listing yields a structured ERROR record, a ConfigParseError
during intercom or normal/WebRTC sync (users.conf, sip.conf or
extensions.conf) yields the structured `updateFailed` payload, a failed
delete command yields a structured FAILED record, and a busy deletion
queue yields a structured FAILED record — with one exception: a terminate
request for an unknown requestId raises an unhandled IndexError out of
the operation instead of returning a structured NotFound failure. -/
theorem C3_error_recovery :
    (∀ (hgUpId ext : String) (chan : List Char) (hOk : Bool) (st : List HangupRec)
        (r0 : HangupRec),
      st.filter (fun r => r.id == hgUpId) = [r0] →
      (terminateGivenCall hgUpId (some ext) chan false hOk st).outcome
        = .response [⟨r0.id, ext, "ERROR"⟩]) ∧
    (∀ (hgUpId ext : String) (chan : List Char) (lOk hOk : Bool) (st : List HangupRec),
      st.filter (fun r => r.id == hgUpId) = [] →
      (terminateGivenCall hgUpId (some ext) chan lOk hOk st).outcome = .unhandled) ∧
    (∀ (extNo : String) (lst : List UpdtRec) (ist : IcomState),
      lst.filter (fun u => u.typ == "Intercomm") ≠ [] →
      (updatedIComList "Intercomm" extNo none lst ist).1 = .updateFailedOut) ∧
    (∀ (extNo : String) (users : Option (List Category)) (lst : List UpdtRec)
        (cst : ContactState),
      lst.filter (fun u => u.typ == "Normal") ≠ [] →
      (updatedList "Normal" extNo users none lst cst).1 = .updateFailedOut) ∧
    (∀ (fd : String) (retain : Nat) (files : List (String × Int)) (lst : List UpdtRec)
        (rst : RecState) (u0 : UpdtRec),
      lst.filter (fun u => u.typ == "Recording") = [u0] →
      (deleteRecData "Recording" fd false retain files lst rst).1
        = .payload [{ u0 with status := "FAILED" }]) ∧
    (∀ (retain : Nat) (files : List (String × Int)) (lst : List UpdtRec)
        (rst : RecState) (u0 : UpdtRec),
      rst.deleteProc = true → lst.filter (fun u => u.typ == "Recording") = [u0] →
      (updatedRecList "Recording" retain files lst rst).1
        = .payload [{ u0 with status := "FAILED" }]) := by
  refine ⟨?_, ?_, ?_, ?_, ?_, ?_⟩
  · intro hgUpId ext chan hOk st r0 hu
    have h1 : (updFirst (fun r => r.id == hgUpId)
        (fun r => { r with callchannel := ext }) st).filter (fun r => r.id == hgUpId)
        = [{ r0 with callchannel := ext }] :=
      filter_updFirst (fun (r : HangupRec) => r.id == hgUpId)
        (fun r => { r with callchannel := ext }) (fun a => rfl) hu
    have h2 := filter_updFirst (fun (r : HangupRec) => r.id == hgUpId)
      (fun r => { r with status := "ERROR" }) (fun a => rfl) h1
    simp only [terminateGivenCall, hu, Bool.false_eq_true, if_false, h2]
  · intro hgUpId ext chan lOk hOk st hu
    simp only [terminateGivenCall, hu]
  · intro extNo lst ist hne
    rcases hfe : lst.filter (fun u => u.typ == "Intercomm") with _ | ⟨u0, rest⟩
    · exact absurd hfe hne
    have hu0 : u0.typ = "Intercomm" := by
      have hmem : u0 ∈ lst.filter (fun u => u.typ == "Intercomm") := by
        rw [hfe]
        exact List.mem_cons_self u0 rest
      simpa using (List.mem_filter.mp hmem).2
    simp only [updatedIComList, hfe, hu0, if_true, getIntercomList]
  · intro extNo users lst cst hne
    rcases hfe : lst.filter (fun u => u.typ == "Normal") with _ | ⟨u0, rest⟩
    · exact absurd hfe hne
    have hu0 : u0.typ = "Normal" := by
      have hmem : u0 ∈ lst.filter (fun u => u.typ == "Normal") := by
        rw [hfe]
        exact List.mem_cons_self u0 rest
      simpa using (List.mem_filter.mp hmem).2
    cases users with
    | none => simp only [updatedList, hfe, hu0, if_true, getContactList, true_or, if_pos]
    | some cats =>
      simp only [updatedList, hfe, hu0, true_or, if_true, getContactList,
        getContactListFromSip]
  · intro fd retain files lst rst u0 hf
    have hu0 : u0.typ = "Recording" := by
      have hmem : u0 ∈ lst.filter (fun u => u.typ == "Recording") := by
        rw [hf]
        exact List.mem_singleton.mpr rfl
      simpa using (List.mem_filter.mp hmem).2
    have hupd := filter_updFirst (fun (u : UpdtRec) => u.typ == "Recording")
      (fun u => { u with status := "FAILED" }) (fun a => rfl) hf
    simp only [deleteRecData, hf, hu0, if_true, Bool.false_eq_true, if_false, hupd]
  · intro retain files lst rst u0 hb hf
    exact (busy_refresh_failed retain files lst rst u0 hb hf).1

/-- Witness for C3 (amended), instantiating every conjunct at a concrete
input. -/
theorem C3_error_recovery_witness :
    (terminateGivenCall "000" (some "100") [] false true
        [⟨"000", "0000", "IDLE"⟩]).outcome = .response [⟨"000", "100", "ERROR"⟩] ∧
    (terminateGivenCall "999" (some "100") [] true true
        [⟨"000", "0000", "IDLE"⟩]).outcome = .unhandled ∧
    (updatedIComList "Intercomm" "d" none listUpdtData0 ⟨[dummyContact], []⟩).1
      = .updateFailedOut ∧
    (updatedList "Normal" "d" none none listUpdtData0 ⟨[dummyContact], [], [], []⟩).1
      = .updateFailedOut ∧
    (deleteRecData "Recording" "f.ogg" false 3 [] listUpdtData0 ⟨false, [], 0, []⟩).1
      = .payload [{ UpdtRec.mk "Recording" "SUCCESFULL" "0000" "NA" with status := "FAILED" }] ∧
    (updatedRecList "Recording" 3 [] listUpdtData0 ⟨true, ["x.ogg"], 1, []⟩).1
      = .payload [{ UpdtRec.mk "Recording" "SUCCESFULL" "0000" "NA" with status := "FAILED" }] :=
  ⟨C3_error_recovery.1 "000" "100" [] true [⟨"000", "0000", "IDLE"⟩]
      ⟨"000", "0000", "IDLE"⟩ (by decide),
    C3_error_recovery.2.1 "999" "100" [] true true [⟨"000", "0000", "IDLE"⟩] (by decide),
    C3_error_recovery.2.2.1 "d" listUpdtData0 ⟨[dummyContact], []⟩ (by decide),
    C3_error_recovery.2.2.2.1 "d" none listUpdtData0 ⟨[dummyContact], [], [], []⟩ (by decide),
    C3_error_recovery.2.2.2.2.1 "f.ogg" 3 [] listUpdtData0 ⟨false, [], 0, []⟩
      ⟨"Recording", "SUCCESFULL", "0000", "NA"⟩ (by decide),
    C3_error_recovery.2.2.2.2.2 3 [] listUpdtData0 ⟨true, ["x.ogg"], 1, []⟩
      ⟨"Recording", "SUCCESFULL", "0000", "NA"⟩ rfl (by decide)⟩

end HangupServer
